import Mathlib

/-!
Shallow embedding of the price-evaluation engine of `logica.py`
(repository morenoss/pesquisademercado).

Prices are modelled as exact rationals (`ℚ`): the Python code works on
float64 / `decimal.Decimal`, and every comparison and mean in the engine is
an arithmetic expression whose exact-rational value is what the spec talks
about.  A pandas `NaN` mean (mean of an empty selection) is modelled as
`Option.none`.  The real-valued standard deviation (a square root) is
modelled with `Real.sqrt`; inside the executable pipeline the method
selection `coef_variacao <= 25` is decided by the equivalent squared
rational inequality, and the equivalence with the `Real.sqrt` formula is
proved (`usaMedia_iff_coefVariacao_le`).
-/

set_option maxHeartbeats 1000000

/-- Input row of the price DataFrame `df_precos`: the `PREÇO` column
(`none` = missing/NaN price, dropped by `dropna`) and the
`TIPO DE FONTE` column (`none` = missing value or missing column). -/
structure Cotacao where
  preco : Option ℚ
  tipoFonte : Option String
deriving DecidableEq, Repr

/-- The `AVALIAÇÃO` column values: `"VÁLIDO"`, `"EXCESSIVAMENTE ELEVADO"`,
`"INEXEQUÍVEL"`. -/
inductive Avaliacao where
  | valido
  | elevado
  | inexequivel
deriving DecidableEq, Repr

/-- The `OBSERVAÇÃO_CALCULADA` column.  The engine writes one of four
strings: the empty string, "Preço excessivamente elevado.", the
public-source acceptance note (carrying `percentual`), and the
"Preço inexequível (...% da média dos demais)" note (carrying
`percentual`).  We keep the shape and the embedded percentage and drop
the surrounding HTML text. -/
inductive Obs where
  | vazia
  | precoElevado
  | aceitoFontePublica (pct : ℚ)
  | precoInexequivel (pct : ℚ)
deriving DecidableEq, Repr

/-- A row of the evaluated DataFrame `dados`: price, source kind, the
`AVALIAÇÃO` status and the calculated observation. -/
structure Linha where
  preco : ℚ
  tipoFonte : Option String
  avaliacao : Avaliacao
  observacao : Obs
deriving DecidableEq, Repr

/-- `FONTES_PUBLICAS = ['Contrato', 'Banco de Preços/Comprasnet',
'Ata de Registro de Preços']` (logica.py line 19).  These are the
spec's Contract, PublicPriceBank and PriceRegistryRecord. -/
def FONTES_PUBLICAS : List String :=
  ["Contrato", "Banco de Preços/Comprasnet", "Ata de Registro de Preços"]

/-- `row.get('TIPO DE FONTE') in FONTES_PUBLICAS`: a missing column or a
missing value (`None`/NaN) is not in the list. -/
def ehFontePublica (f : Option String) : Bool :=
  match f with
  | some s => FONTES_PUBLICAS.contains s
  | none => false

/-- Mean of a pandas Series: NaN (`none`) on an empty series, otherwise
sum divided by length. -/
def media? : List ℚ → Option ℚ
  | [] => none
  | p :: l => some ((p :: l).sum / ((p :: l).length : ℚ))

/-- Total mean `sum / len` (the value of `Series.mean()` on a non-empty
series; on `[]` it degenerates to `0/0 = 0`, a case the engine never
reaches with a defined mean). -/
def mediaQ (l : List ℚ) : ℚ :=
  l.sum / l.length

/-- `Series.median()`: sort ascending; middle element for odd length,
average of the two middle elements for even length. -/
def mediana (l : List ℚ) : ℚ :=
  let s := List.insertionSort (fun a b => a ≤ b) l
  if l.length % 2 = 1 then s.getD (l.length / 2) 0
  else (s.getD (l.length / 2 - 1) 0 + s.getD (l.length / 2) 0) / 2

/-- Population variance (`ddof=0`): mean of squared deviations from the
mean.  `Series.std(ddof=0)` is its square root (`desvioPadrao` below). -/
def variancia (l : List ℚ) : ℚ :=
  mediaQ (l.map (fun x => (x - mediaQ l) ^ 2))

/-- `desvio_padrao = precos_finais.std(ddof=0) if len(precos_finais) > 1
else 0` (logica.py line 105). -/
noncomputable def desvioPadrao (l : List ℚ) : ℝ :=
  if 1 < l.length then Real.sqrt (variancia l) else 0

/-- `coef_variacao = (desvio_padrao / preco_medio) * 100 if preco_medio > 0
else 0` (logica.py line 106). -/
noncomputable def coefVariacao (l : List ℚ) : ℝ :=
  if 0 < mediaQ l then (desvioPadrao l / (mediaQ l : ℝ)) * 100 else 0

/-- Computable decision of `coef_variacao <= 25` (logica.py line 108).
The code compares `sqrt(variancia)/media * 100 ≤ 25`; when the mean is
not positive or there are fewer than two entries the code sets the
coefficient to `0`, hence chooses the mean.  For `media > 0` and at least
two entries, squaring the inequality gives the equivalent rational test
`16 * variancia ≤ media ^ 2`; the equivalence with the real-valued
formula is proved in `usaMedia_iff_coefVariacao_le`. -/
def usaMedia (l : List ℚ) : Bool :=
  if mediaQ l ≤ 0 then true
  else if l.length ≤ 1 then true
  else if 16 * variancia l ≤ (mediaQ l) ^ 2 then true else false

/-- Clamp of `_quant` (logica.py line 7): `max(0, min(7, int(n)))`,
returned as the number of decimal places. -/
def clampCasas (n : ℤ) : ℕ :=
  (max 0 (min 7 n)).toNat

/-- Round-half-to-even to an integer (`decimal.ROUND_HALF_EVEN` applied to
an exact decimal value). -/
def roundHalfEven (x : ℚ) : ℤ :=
  if x - ⌊x⌋ < 1 / 2 then ⌊x⌋
  else if 1 / 2 < x - ⌊x⌋ then ⌊x⌋ + 1
  else if ⌊x⌋ % 2 = 0 then ⌊x⌋ else ⌊x⌋ + 1

/-- `arredonda_nbr5891(valor, casas)` (logica.py lines 10-16):
`Decimal(str(valor)).quantize(_quant(casas), rounding=ROUND_HALF_EVEN)`,
returned as a number.  On an exact rational `valor` this is
round-half-to-even at `clampCasas casas` decimal places.  The
`InvalidOperation` fallback of the Python code never fires for a numeric
input. -/
def arredonda_nbr5891 (valor : ℚ) (casas : ℤ) : ℚ :=
  let k := clampCasas casas
  (roundHalfEven (valor * 10 ^ k) : ℚ) / 10 ^ k

/-- Python's built-in `round(x, nd)` used on the `aplicar_nbr5891=False`
branch (logica.py lines 132-133, 139).  Python `round` is also
round-half-to-even; on the exact rationals of this model it coincides
with the decimal half-even rule (the binary-float tie-misrepresentation
effects of `round` are outside this exact model).  The engine only calls
it with `nd` already clamped to `[0,7]`, so the inner clamp is inert. -/
def round_padrao (valor : ℚ) (casas : ℤ) : ℚ :=
  let k := clampCasas casas
  (roundHalfEven (valor * 10 ^ k) : ℚ) / 10 ^ k

/-- Rounding applied to a result value: NBR 5891 when `aplicar_nbr5891`,
plain `round` otherwise (logica.py lines 128-133). -/
def arredondaResultado (aplicar : Bool) (valor : ℚ) (casas : ℤ) : ℚ :=
  if aplicar then arredonda_nbr5891 valor casas else round_padrao valor casas

/-- `dados = df_precos.dropna(subset=['PREÇO'])` followed by the numeric
coercion (lines 39-41): the rows whose price is present, in input order,
keeping price and source kind. -/
def dadosDe (df : List Cotacao) : List (ℚ × Option String) :=
  df.filterMap (fun c => c.preco.map (fun p => (p, c.tipoFonte)))

/-- One step of filter 1 (logica.py lines 49-53): row `i` against the mean
of all the *other* rows of the frozen copy `precos_validos` of the full
eligible set.  `precos` is the full price list and `i` the row position;
`drop(idx)` is `eraseIdx i`. -/
def marca1 (precos : List ℚ) (limiar : ℚ) (i : ℕ) (d : ℚ × Option String) : Linha :=
  match media? (precos.eraseIdx i) with
  | some m =>
      if d.1 > (1 + limiar / 100) * m then
        ⟨d.1, d.2, Avaliacao.elevado, Obs.precoElevado⟩
      else
        ⟨d.1, d.2, Avaliacao.valido, Obs.vazia⟩
  | none => ⟨d.1, d.2, Avaliacao.valido, Obs.vazia⟩

/-- Iteration of filter 1 over the rows, carrying the row position. -/
def aplicaFiltro1Aux (precos : List ℚ) (limiar : ℚ) : ℕ → List (ℚ × Option String) → List Linha
  | _, [] => []
  | i, d :: ds => marca1 precos limiar i d :: aplicaFiltro1Aux precos limiar (i + 1) ds

/-- Filter 1, "excessively elevated" (logica.py lines 47-53): every row is
compared against the mean of the others taken in the frozen copy
`precos_validos = dados.copy()` of the set at filter entry; rows start as
`VÁLIDO` with an empty observation (lines 43-44). -/
def aplicaFiltro1 (dados : List (ℚ × Option String)) (limiar : ℚ) : List Linha :=
  aplicaFiltro1Aux (dados.map Prod.fst) limiar 0 dados

/-- Boolean test `row['AVALIAÇÃO'] == "VÁLIDO"`. -/
def Linha.ehValido (r : Linha) : Bool :=
  match r.avaliacao with
  | Avaliacao.valido => true
  | _ => false

/-- `dados[dados['AVALIAÇÃO'] == "VÁLIDO"]`: the rows currently marked
valid, in order. -/
def validos (linhas : List Linha) : List Linha :=
  linhas.filter Linha.ehValido

/-- One step of filter 2 (logica.py lines 58-71) on a step-1-valid row:
`j` is the row's position inside `dados_sem_altos`, `S1` the price list of
`dados_sem_altos`; the row is compared against
`dados_sem_altos.drop(idx)['PREÇO'].mean()`, i.e. the mean of
`S1.eraseIdx j`.  A public-source row keeps its status and only gets the
acceptance note; any other row is marked inexequível. -/
def marca2 (S1 : List ℚ) (limiar : ℚ) (j : ℕ) (r : Linha) : Linha :=
  match media? (S1.eraseIdx j) with
  | some m =>
      if r.preco < (limiar / 100) * m then
        let pct := if m > 0 then r.preco / m * 100 else 0
        if ehFontePublica r.tipoFonte then
          { r with observacao := Obs.aceitoFontePublica pct }
        else
          { r with avaliacao := Avaliacao.inexequivel, observacao := Obs.precoInexequivel pct }
      else r
  | none => r

/-- Iteration of filter 2: walks all rows in order; only rows that are
still valid after filter 1 are processed (they are exactly the rows of
`dados_sem_altos`), and `j` counts the position inside that subset. -/
def aplicaFiltro2Aux (S1 : List ℚ) (limiar : ℚ) : ℕ → List Linha → List Linha
  | _, [] => []
  | j, r :: rs =>
      match r.ehValido with
      | true => marca2 S1 limiar j r :: aplicaFiltro2Aux S1 limiar (j + 1) rs
      | false => r :: aplicaFiltro2Aux S1 limiar j rs

/-- Filter 2, "inexequível" (logica.py lines 55-71): operates on the
snapshot `dados_sem_altos` of the rows valid after filter 1 (a copy --
the in-loop status writes go to `dados` and do not change the snapshot). -/
def aplicaFiltro2 (linhas : List Linha) (limiar : ℚ) : List Linha :=
  aplicaFiltro2Aux ((validos linhas).map Linha.preco) limiar 0 linhas

/-- The classified DataFrame after both filters (`dados` at line 73). -/
def avaliadosDe (df : List Cotacao) (limiarElevado limiarInexequivel : ℚ) : List Linha :=
  aplicaFiltro2 (aplicaFiltro1 (dadosDe df) limiarElevado) limiarInexequivel

/-- `precos_finais_df = dados[dados['AVALIAÇÃO'] == "VÁLIDO"]` (line 73). -/
def finaisDe (df : List Cotacao) (limiarElevado limiarInexequivel : ℚ) : List Linha :=
  validos (avaliadosDe df limiarElevado limiarInexequivel)

/-- `precos_finais = precos_finais_df['PREÇO']` (line 74). -/
def precosFinaisDe (df : List Cotacao) (limiarElevado limiarInexequivel : ℚ) : List ℚ :=
  (finaisDe df limiarElevado limiarInexequivel).map Linha.preco

/-- The three problem strings the engine can append (logica.py lines
78-99), as an enumeration:
`menosDe3Validos` = "A pesquisa possui menos de 3 preços válidos, ...",
`nenhumPublicoValido` = "Nenhum preço válido proveniente de fonte pública
foi identificado.",
`menosDe3PublicosValidos` = "Foram encontrados menos de 3 preços válidos
de fontes públicas; se possível, complemente a pesquisa.".
No other problem string occurs in `calcular_preco_mercado`. -/
inductive Problema where
  | menosDe3Validos
  | nenhumPublicoValido
  | menosDe3PublicosValidos
deriving DecidableEq, Repr

/-- `n_publicos_validos` (lines 84-88): how many currently-valid rows have
a source kind in `FONTES_PUBLICAS` (0 when the column is absent, which the
`none` source kind also covers). -/
def contaPublicosValidos (linhas : List Linha) : ℕ :=
  ((validos linhas).filter (fun r => ehFontePublica r.tipoFonte)).length

/-- The `problemas` list in order (lines 78-99): the fewer-than-3-valid
warning, then exactly one of the two public-source warnings (`if` /
`elif`), or none when there are at least 3 valid public-source rows. -/
def problemasDe (linhas : List Linha) : List Problema :=
  (if (validos linhas).length < 3 then [Problema.menosDe3Validos] else []) ++
  (if contaPublicosValidos linhas = 0 then [Problema.nenhumPublicoValido]
   else if contaPublicosValidos linhas < 3 then [Problema.menosDe3PublicosValidos] else [])

/-- `preco_minimo_row = precos_finais_df.loc[precos_finais.idxmin()]`
(line 104): `Series.idxmin` returns the label of the *first* occurrence of
the minimum, so this is the first row attaining the minimal price. -/
def melhorLinha (r0 : Linha) (rs : List Linha) : Linha :=
  rs.foldl (fun acc x => if x.preco < acc.preco then x else acc) r0

/-- `metodo_sugerido`: "MÉDIA" or "MEDIANA" (lines 108-113). -/
inductive Metodo where
  | media
  | mediana
deriving DecidableEq, Repr

/-- The `resultados` dictionary on the successful path (lines 116-144).
The float entries `desvio_padrao` and `coef_variacao` are real-valued and
are modelled by the functions `desvioPadrao` and `coefVariacao` applied to
the final valid price list; `preco_mercado_bruto` keeps the unrounded
statistic and `preco_mercado_calculado` / `media` are the rounded outputs.
`precosArredondados` is the display column `PREÇO_ARREDONDADO` (lines
136-140). -/
structure Resultados where
  problemas : List Problema
  dfAvaliado : List Linha
  media : ℚ
  metodoSugerido : Metodo
  precoMercadoBruto : ℚ
  precoMercadoCalculado : ℚ
  melhorPrecoInfo : Linha
  precosArredondados : List ℚ
  casasDecimais : ℤ
  aplicarNbr : Bool
deriving DecidableEq, Repr

/-- Outcome of a call to `calcular_preco_mercado`:
`vazia` is the early `return {}` (line 37);
`erro` is the `ValueError` raised by `precos_finais.idxmin()` when the
final valid set is empty (line 104) — the partially built dictionary is
discarded when the exception propagates;
`ok` is the dictionary returned at line 145. -/
inductive Saida where
  | vazia
  | erro
  | ok (r : Resultados)
deriving DecidableEq, Repr

/-- `calcular_preco_mercado(df_precos, limiar_elevado, limiar_inexequivel,
casas_decimais, aplicar_nbr5891)` (logica.py lines 21-145). -/
def calcular_preco_mercado (df : List Cotacao) (limiarElevado limiarInexequivel : ℚ)
    (casasDecimais : ℤ) (aplicarNbr : Bool) : Saida :=
  if (df.filterMap Cotacao.preco).isEmpty then Saida.vazia else
  match finaisDe df limiarElevado limiarInexequivel with
  | [] => Saida.erro
  | r0 :: rs =>
      Saida.ok
        { problemas := problemasDe (avaliadosDe df limiarElevado limiarInexequivel)
          dfAvaliado := avaliadosDe df limiarElevado limiarInexequivel
          media := arredondaResultado aplicarNbr
            (mediaQ (precosFinaisDe df limiarElevado limiarInexequivel)) casasDecimais
          metodoSugerido :=
            if usaMedia (precosFinaisDe df limiarElevado limiarInexequivel) then Metodo.media
            else Metodo.mediana
          precoMercadoBruto :=
            if usaMedia (precosFinaisDe df limiarElevado limiarInexequivel) then
              mediaQ (precosFinaisDe df limiarElevado limiarInexequivel)
            else mediana (precosFinaisDe df limiarElevado limiarInexequivel)
          precoMercadoCalculado := arredondaResultado aplicarNbr
            (if usaMedia (precosFinaisDe df limiarElevado limiarInexequivel) then
              mediaQ (precosFinaisDe df limiarElevado limiarInexequivel)
             else mediana (precosFinaisDe df limiarElevado limiarInexequivel)) casasDecimais
          melhorPrecoInfo := melhorLinha r0 rs
          precosArredondados := (avaliadosDe df limiarElevado limiarInexequivel).map
            (fun r => arredondaResultado aplicarNbr r.preco casasDecimais)
          casasDecimais := max 0 (min 7 casasDecimais)
          aplicarNbr := aplicarNbr }

/-! ### Basic lemmas about means and leave-one-out selections -/

theorem media?_eq_ite (l : List ℚ) :
    media? l = if l = [] then none else some (mediaQ l) := by
  cases l with
  | nil => rfl
  | cons p t => simp [media?, mediaQ]

theorem media?_eq_none_iff (l : List ℚ) : media? l = none ↔ l = [] := by
  rw [media?_eq_ite]
  split <;> simp_all

theorem mediaQ_nonneg {l : List ℚ} (h : ∀ x ∈ l, 0 ≤ x) : 0 ≤ mediaQ l := by
  have hs : 0 ≤ l.sum := List.sum_nonneg h
  have hl : (0 : ℚ) ≤ (l.length : ℚ) := by positivity
  exact div_nonneg hs hl

theorem le_mediaQ {l : List ℚ} {a : ℚ} (hne : l ≠ []) (h : ∀ x ∈ l, a ≤ x) :
    a ≤ mediaQ l := by
  have hlen : 0 < (l.length : ℚ) := by
    have : 0 < l.length := List.length_pos.mpr hne
    exact_mod_cast this
  rw [mediaQ, le_div_iff₀ hlen]
  calc a * (l.length : ℚ) = (l.length : ℚ) * a := by ring
  _ = l.length • a := by rw [nsmul_eq_mul]
  _ ≤ l.sum := List.card_nsmul_le_sum l a h

theorem mediaQ_le {l : List ℚ} {b : ℚ} (hne : l ≠ []) (h : ∀ x ∈ l, x ≤ b) :
    mediaQ l ≤ b := by
  have hlen : 0 < (l.length : ℚ) := by
    have : 0 < l.length := List.length_pos.mpr hne
    exact_mod_cast this
  rw [mediaQ, div_le_iff₀ hlen]
  calc l.sum ≤ l.length • b := List.sum_le_card_nsmul l b h
  _ = (l.length : ℚ) * b := by rw [nsmul_eq_mul]
  _ = b * (l.length : ℚ) := by ring

theorem sum_eraseIdx : ∀ (l : List ℚ) (i : ℕ) (h : i < l.length),
    (l.eraseIdx i).sum = l.sum - l[i]
  | [], i, h => by simp at h
  | a :: t, 0, _ => by simp [List.eraseIdx]
  | a :: t, i + 1, h => by
    have ih := sum_eraseIdx t i (by simpa using h)
    simp [List.eraseIdx, ih]
    ring

theorem length_eraseIdx_of_lt {l : List ℚ} {i : ℕ} (h : i < l.length) :
    (l.eraseIdx i).length = l.length - 1 := by
  rw [List.length_eraseIdx, if_pos h]

theorem media?_eraseIdx {l : List ℚ} {i : ℕ} (h : i < l.length) :
    media? (l.eraseIdx i) =
      if l.length ≤ 1 then none
      else some ((l.sum - l[i]) / ((l.length : ℚ) - 1)) := by
  rw [media?_eq_ite]
  by_cases h1 : l.length ≤ 1
  · have : (l.eraseIdx i).length = 0 := by
      rw [length_eraseIdx_of_lt h]; omega
    rw [if_pos (List.length_eq_zero.mp this), if_pos h1]
  · have hne : l.eraseIdx i ≠ [] := by
      intro hcon
      have := length_eraseIdx_of_lt h
      rw [hcon] at this
      simp at this
      omega
    rw [if_neg hne, if_neg h1]
    have hcast : (((l.eraseIdx i).length : ℚ)) = (l.length : ℚ) - 1 := by
      rw [length_eraseIdx_of_lt h]
      have : 1 ≤ l.length := by omega
      push_cast [Nat.cast_sub this]
      ring
    rw [mediaQ, sum_eraseIdx l i h, hcast]

/-! ### Positional behaviour of filter 1 -/

theorem length_aplicaFiltro1Aux (precos : List ℚ) (limiar : ℚ) :
    ∀ (i : ℕ) (l : List (ℚ × Option String)),
      (aplicaFiltro1Aux precos limiar i l).length = l.length
  | _, [] => rfl
  | i, _ :: ds => by
    simp [aplicaFiltro1Aux, length_aplicaFiltro1Aux precos limiar (i + 1) ds]

theorem getElem?_aplicaFiltro1Aux (precos : List ℚ) (limiar : ℚ) :
    ∀ (i : ℕ) (l : List (ℚ × Option String)) (k : ℕ),
      (aplicaFiltro1Aux precos limiar i l)[k]? =
        (l[k]?).map (marca1 precos limiar (i + k))
  | _, [], k => by simp [aplicaFiltro1Aux]
  | i, d :: ds, 0 => by simp [aplicaFiltro1Aux]
  | i, d :: ds, k + 1 => by
    have ih := getElem?_aplicaFiltro1Aux precos limiar (i + 1) ds k
    simp only [aplicaFiltro1Aux, List.getElem?_cons_succ, ih]
    have : i + 1 + k = i + (k + 1) := by omega
    rw [this]

theorem getElem?_aplicaFiltro1 (dados : List (ℚ × Option String)) (limiar : ℚ) (k : ℕ) :
    (aplicaFiltro1 dados limiar)[k]? =
      (dados[k]?).map (marca1 (dados.map Prod.fst) limiar k) := by
  rw [aplicaFiltro1, getElem?_aplicaFiltro1Aux]
  simp

theorem preco_marca1 (precos : List ℚ) (limiar : ℚ) (i : ℕ) (d : ℚ × Option String) :
    (marca1 precos limiar i d).preco = d.1 := by
  rw [marca1]
  cases media? (precos.eraseIdx i)
  · simp
  · simp only []
    split <;> simp

theorem tipoFonte_marca1 (precos : List ℚ) (limiar : ℚ) (i : ℕ) (d : ℚ × Option String) :
    (marca1 precos limiar i d).tipoFonte = d.2 := by
  rw [marca1]
  cases media? (precos.eraseIdx i)
  · simp
  · simp only []
    split <;> simp

theorem avaliacao_marca1 (precos : List ℚ) (limiar : ℚ) (i : ℕ) (d : ℚ × Option String) :
    (marca1 precos limiar i d).avaliacao = Avaliacao.valido ∨
      (marca1 precos limiar i d).avaliacao = Avaliacao.elevado := by
  rw [marca1]
  cases media? (precos.eraseIdx i)
  · simp
  · simp only []
    split <;> simp

theorem marca1_elevado_iff (precos : List ℚ) (limiar : ℚ) (i : ℕ) (d : ℚ × Option String) :
    (marca1 precos limiar i d).avaliacao = Avaliacao.elevado ↔
      ∃ m, media? (precos.eraseIdx i) = some m ∧ d.1 > (1 + limiar / 100) * m := by
  rw [marca1]
  cases hm : media? (precos.eraseIdx i)
  · simp
  · simp only []
    split
    · simp_all
    · simp_all

/-! ### Positional behaviour of filter 2 -/

theorem preco_marca2 (S1 : List ℚ) (limiar : ℚ) (j : ℕ) (r : Linha) :
    (marca2 S1 limiar j r).preco = r.preco := by
  rw [marca2]
  cases media? (S1.eraseIdx j)
  · simp
  · simp only []
    split
    · split <;> simp
    · simp

theorem tipoFonte_marca2 (S1 : List ℚ) (limiar : ℚ) (j : ℕ) (r : Linha) :
    (marca2 S1 limiar j r).tipoFonte = r.tipoFonte := by
  rw [marca2]
  cases media? (S1.eraseIdx j)
  · simp
  · simp only []
    split
    · split <;> simp
    · simp

theorem length_aplicaFiltro2Aux (S1 : List ℚ) (limiar : ℚ) :
    ∀ (j : ℕ) (l : List Linha), (aplicaFiltro2Aux S1 limiar j l).length = l.length
  | _, [] => rfl
  | j, r :: rs => by
    rw [aplicaFiltro2Aux]
    cases r.ehValido
    · simp [length_aplicaFiltro2Aux S1 limiar j rs]
    · simp [length_aplicaFiltro2Aux S1 limiar (j + 1) rs]

theorem aplicaFiltro2Aux_spec :
    ∀ (l : List Linha) (S1 : List ℚ) (limiar : ℚ) (j k : ℕ), k < l.length →
      S1.drop j = (validos l).map Linha.preco →
      ∀ (hk : k < l.length),
      (l[k].ehValido = false → (aplicaFiltro2Aux S1 limiar j l)[k]? = some l[k]) ∧
      (l[k].ehValido = true →
        ∃ n, S1[n]? = some l[k].preco ∧
          (aplicaFiltro2Aux S1 limiar j l)[k]? = some (marca2 S1 limiar n l[k]))
  | [], _, _, _, k, hk, _, _ => absurd hk (by simp)
  | r :: rs, S1, limiar, j, 0, _, hinv, hk => by
    cases hv : r.ehValido
    · rw [aplicaFiltro2Aux]
      simp [hv]
    · rw [aplicaFiltro2Aux]
      simp only [hv, List.getElem_cons_zero]
      refine ⟨by simp, fun _ => ⟨j, ?_, by simp⟩⟩
      have h1 : validos (r :: rs) = r :: validos rs := by
        rw [validos, List.filter_cons, if_pos hv, validos]
      rw [h1] at hinv
      have h2 : (S1.drop j)[0]? = some r.preco := by rw [hinv]; simp
      rw [List.getElem?_drop] at h2
      simpa using h2
  | r :: rs, S1, limiar, j, k + 1, hlt, hinv, hk => by
    cases hv : r.ehValido
    · have h1 : validos (r :: rs) = validos rs := by
        rw [validos, List.filter_cons, if_neg (by simp [hv]), validos]
      rw [h1] at hinv
      have ih := aplicaFiltro2Aux_spec rs S1 limiar j k (by simpa using hlt) hinv
        (by simpa using hlt)
      rw [aplicaFiltro2Aux]
      simpa [hv] using ih
    · have h1 : validos (r :: rs) = r :: validos rs := by
        rw [validos, List.filter_cons, if_pos hv, validos]
      rw [h1] at hinv
      have hinv2 : S1.drop (j + 1) = (validos rs).map Linha.preco := by
        have : S1.drop (j + 1) = (S1.drop j).drop 1 := by
          rw [List.drop_drop]
        rw [this, hinv]
        simp
      have ih := aplicaFiltro2Aux_spec rs S1 limiar (j + 1) k (by simpa using hlt) hinv2
        (by simpa using hlt)
      rw [aplicaFiltro2Aux]
      simpa [hv] using ih

theorem aplicaFiltro2_spec (linhas : List Linha) (limiar : ℚ) (k : ℕ)
    (hk : k < linhas.length) :
    (linhas[k].ehValido = false →
      (aplicaFiltro2 linhas limiar)[k]? = some linhas[k]) ∧
    (linhas[k].ehValido = true →
      ∃ n, ((validos linhas).map Linha.preco)[n]? = some linhas[k].preco ∧
        (aplicaFiltro2 linhas limiar)[k]? =
          some (marca2 ((validos linhas).map Linha.preco) limiar n linhas[k])) := by
  exact aplicaFiltro2Aux_spec linhas ((validos linhas).map Linha.preco) limiar 0 k hk
    (by simp) hk

/-! ### Preservation of price and source kind through the filters -/

theorem map_pair_aplicaFiltro1Aux (precos : List ℚ) (limiar : ℚ) :
    ∀ (i : ℕ) (l : List (ℚ × Option String)),
      (aplicaFiltro1Aux precos limiar i l).map (fun r => (r.preco, r.tipoFonte)) = l
  | _, [] => rfl
  | i, d :: ds => by
    simp [aplicaFiltro1Aux, map_pair_aplicaFiltro1Aux precos limiar (i + 1) ds,
      preco_marca1, tipoFonte_marca1]

theorem map_pair_aplicaFiltro2Aux (S1 : List ℚ) (limiar : ℚ) :
    ∀ (j : ℕ) (l : List Linha),
      (aplicaFiltro2Aux S1 limiar j l).map (fun r => (r.preco, r.tipoFonte)) =
        l.map (fun r => (r.preco, r.tipoFonte))
  | _, [] => rfl
  | j, r :: rs => by
    rw [aplicaFiltro2Aux]
    cases r.ehValido
    · simp [map_pair_aplicaFiltro2Aux S1 limiar j rs]
    · simp [map_pair_aplicaFiltro2Aux S1 limiar (j + 1) rs, preco_marca2, tipoFonte_marca2]

theorem map_pair_avaliadosDe (df : List Cotacao) (t1 t2 : ℚ) :
    (avaliadosDe df t1 t2).map (fun r => (r.preco, r.tipoFonte)) = dadosDe df := by
  rw [avaliadosDe, aplicaFiltro2, map_pair_aplicaFiltro2Aux, aplicaFiltro1,
    map_pair_aplicaFiltro1Aux]

theorem map_preco_eq_of_map_pair {l : List Linha} {d : List (ℚ × Option String)}
    (h : l.map (fun r => (r.preco, r.tipoFonte)) = d) :
    l.map Linha.preco = d.map Prod.fst := by
  calc l.map Linha.preco = (l.map (fun r => (r.preco, r.tipoFonte))).map Prod.fst := by
        rw [List.map_map]; rfl
  _ = d.map Prod.fst := by rw [h]

/-! ### Valid rows, membership -/

theorem ehValido_iff (r : Linha) : r.ehValido = true ↔ r.avaliacao = Avaliacao.valido := by
  rw [Linha.ehValido]
  cases r.avaliacao <;> simp

theorem mem_validos {linhas : List Linha} {r : Linha} :
    r ∈ validos linhas ↔ r ∈ linhas ∧ r.ehValido = true := by
  rw [validos, List.mem_filter]

theorem mem_of_getElem?_eq_some {α : Type} {l : List α} {k : ℕ} {x : α}
    (h : l[k]? = some x) : x ∈ l := by
  obtain ⟨hk, he⟩ := List.getElem?_eq_some.mp h
  exact he ▸ List.getElem_mem hk

/-! ### Minimum and maximum positions in a price list -/

theorem exists_min_getElem : ∀ (l : List ℚ), l ≠ [] →
    ∃ i, ∃ hi : i < l.length, ∀ x ∈ l, l[i] ≤ x
  | [], h => absurd rfl h
  | [a], _ => ⟨0, by simp, by simp⟩
  | a :: b :: t, _ => by
    obtain ⟨i, hi, hmin⟩ := exists_min_getElem (b :: t) (by simp)
    by_cases hab : a ≤ (b :: t)[i]
    · refine ⟨0, by simp, ?_⟩
      intro x hx
      rcases List.mem_cons.mp hx with rfl | hx2
      · simp
      · simpa using le_trans hab (hmin x hx2)
    · refine ⟨i + 1, by simpa using hi, ?_⟩
      intro x hx
      rcases List.mem_cons.mp hx with rfl | hx2
      · simpa using le_of_not_le hab
      · simpa using hmin x hx2

theorem exists_max_getElem : ∀ (l : List ℚ), l ≠ [] →
    ∃ i, ∃ hi : i < l.length, ∀ x ∈ l, x ≤ l[i]
  | [], h => absurd rfl h
  | [a], _ => ⟨0, by simp, by simp⟩
  | a :: b :: t, _ => by
    obtain ⟨i, hi, hmax⟩ := exists_max_getElem (b :: t) (by simp)
    by_cases hab : (b :: t)[i] ≤ a
    · refine ⟨0, by simp, ?_⟩
      intro x hx
      rcases List.mem_cons.mp hx with rfl | hx2
      · simp
      · simpa using le_trans (hmax x hx2) hab
    · refine ⟨i + 1, by simpa using hi, ?_⟩
      intro x hx
      rcases List.mem_cons.mp hx with rfl | hx2
      · simpa using le_of_not_le hab
      · simpa using hmax x hx2

/-! ### Survival of extremal rows in each filter -/

theorem media?_eq_some_iff {l : List ℚ} {m : ℚ} :
    media? l = some m ↔ l ≠ [] ∧ m = mediaQ l := by
  rw [media?_eq_ite]
  split <;> simp_all
  exact eq_comm

theorem marca1_valido_of_min (precos : List ℚ) (limiar : ℚ) (i : ℕ)
    (d : ℚ × Option String) (hmin : ∀ x ∈ precos, d.1 ≤ x) (hp : 0 ≤ d.1)
    (ht : 0 ≤ limiar) :
    (marca1 precos limiar i d).avaliacao = Avaliacao.valido := by
  rw [marca1]
  cases hm : media? (precos.eraseIdx i)
  · simp
  case some m =>
    obtain ⟨hne, hmval⟩ := media?_eq_some_iff.mp hm
    have hgem : d.1 ≤ m := by
      rw [hmval]
      exact le_mediaQ hne (fun x hx => hmin x (List.mem_of_mem_eraseIdx hx))
    have hm0 : 0 ≤ m := le_trans hp hgem
    have hfac : (1 : ℚ) ≤ 1 + limiar / 100 := by
      have : 0 ≤ limiar / 100 := by positivity
      linarith
    have : m ≤ (1 + limiar / 100) * m := le_mul_of_one_le_left hm0 hfac
    have hnot : ¬ d.1 > (1 + limiar / 100) * m := by
      push_neg
      linarith
    simp only []
    rw [if_neg hnot]

theorem marca2_valido_of_max (S1 : List ℚ) (limiar : ℚ) (n : ℕ) (r : Linha)
    (hval : r.avaliacao = Avaliacao.valido) (hmax : ∀ x ∈ S1, x ≤ r.preco)
    (hnn : ∀ x ∈ S1, 0 ≤ x) (ht : limiar ≤ 100) :
    (marca2 S1 limiar n r).avaliacao = Avaliacao.valido := by
  rw [marca2]
  cases hm : media? (S1.eraseIdx n)
  · simpa using hval
  case some m =>
    obtain ⟨hne, hmval⟩ := media?_eq_some_iff.mp hm
    have hsub : ∀ x ∈ S1.eraseIdx n, x ∈ S1 := fun x hx => List.mem_of_mem_eraseIdx hx
    have hlem : m ≤ r.preco := by
      rw [hmval]
      exact mediaQ_le hne (fun x hx => hmax x (hsub x hx))
    have hm0 : 0 ≤ m := by
      rw [hmval]
      exact mediaQ_nonneg (fun x hx => hnn x (hsub x hx))
    have hfac : limiar / 100 ≤ 1 := by linarith
    have hle : limiar / 100 * m ≤ m := mul_le_of_le_one_left hm0 hfac
    have hnot : ¬ r.preco < limiar / 100 * m := by
      push_neg
      linarith
    simp only []
    rw [if_neg hnot]
    exact hval

/-! ### The empty-input check and inversion of the main function -/

theorem filterMap_preco_eq_nil_iff (df : List Cotacao) :
    df.filterMap Cotacao.preco = [] ↔ dadosDe df = [] := by
  induction df with
  | nil => simp [dadosDe]
  | cons c cs ih =>
    cases hc : c.preco with
    | none => simp [dadosDe, List.filterMap_cons, hc]
    | some p => simp [dadosDe, List.filterMap_cons, hc]

theorem calcular_ok_inv {df : List Cotacao} {t1 t2 : ℚ} {nd : ℤ} {b : Bool}
    {r : Resultados} (h : calcular_preco_mercado df t1 t2 nd b = Saida.ok r) :
    ∃ r0 rs, finaisDe df t1 t2 = r0 :: rs ∧
      r = { problemas := problemasDe (avaliadosDe df t1 t2)
            dfAvaliado := avaliadosDe df t1 t2
            media := arredondaResultado b (mediaQ (precosFinaisDe df t1 t2)) nd
            metodoSugerido :=
              if usaMedia (precosFinaisDe df t1 t2) then Metodo.media else Metodo.mediana
            precoMercadoBruto :=
              if usaMedia (precosFinaisDe df t1 t2) then mediaQ (precosFinaisDe df t1 t2)
              else mediana (precosFinaisDe df t1 t2)
            precoMercadoCalculado := arredondaResultado b
              (if usaMedia (precosFinaisDe df t1 t2) then mediaQ (precosFinaisDe df t1 t2)
               else mediana (precosFinaisDe df t1 t2)) nd
            melhorPrecoInfo := melhorLinha r0 rs
            precosArredondados := (avaliadosDe df t1 t2).map
              (fun l => arredondaResultado b l.preco nd)
            casasDecimais := max 0 (min 7 nd)
            aplicarNbr := b } := by
  rw [calcular_preco_mercado] at h
  by_cases hemp : (df.filterMap Cotacao.preco).isEmpty = true
  · rw [if_pos hemp] at h
    exact absurd h (by simp)
  · rw [if_neg hemp] at h
    cases hfin : finaisDe df t1 t2 with
    | nil =>
      rw [hfin] at h
      exact absurd h (by simp)
    | cons r0 rs =>
      rw [hfin] at h
      exact ⟨r0, rs, rfl, (Saida.ok.inj h).symm⟩

theorem calcular_eq_erro {df : List Cotacao} {t1 t2 : ℚ} {nd : ℤ} {b : Bool}
    (hne : dadosDe df ≠ []) (hfin : finaisDe df t1 t2 = []) :
    calcular_preco_mercado df t1 t2 nd b = Saida.erro := by
  rw [calcular_preco_mercado]
  have hemp : ¬ (df.filterMap Cotacao.preco).isEmpty = true := by
    rw [List.isEmpty_iff, filterMap_preco_eq_nil_iff]
    exact hne
  rw [if_neg hemp, hfin]

/-! ### Method selection versus the real-valued coefficient of variation -/

theorem variancia_nonneg (l : List ℚ) : 0 ≤ variancia l := by
  apply mediaQ_nonneg
  intro x hx
  rw [List.mem_map] at hx
  obtain ⟨y, _, rfl⟩ := hx
  positivity

theorem usaMedia_iff_coefVariacao_le (l : List ℚ) :
    usaMedia l = true ↔ coefVariacao l ≤ 25 := by
  rw [usaMedia, coefVariacao, desvioPadrao]
  by_cases h1 : mediaQ l ≤ 0
  · rw [if_pos h1, if_neg (not_lt.mpr h1)]
    norm_num
  · have hpos : 0 < mediaQ l := not_le.mp h1
    have hmR : (0 : ℝ) < (mediaQ l : ℝ) := by exact_mod_cast hpos
    rw [if_neg h1, if_pos hpos]
    by_cases h2 : l.length ≤ 1
    · rw [if_pos h2, if_neg (not_lt.mpr h2)]
      norm_num
    · have hlen : 1 < l.length := not_le.mp h2
      rw [if_neg h2, if_pos hlen]
      have hvar : (0 : ℝ) ≤ ((variancia l : ℚ) : ℝ) := by
        exact_mod_cast variancia_nonneg l
      have hq : (0 : ℝ) ≤ ((mediaQ l : ℚ) : ℝ) / 4 := by positivity
      have hs := Real.sqrt_le_left hq (x := ((variancia l : ℚ) : ℝ))
      constructor
      · intro hb
        have hc : 16 * variancia l ≤ (mediaQ l) ^ 2 := by
          by_contra hcon
          simp [if_neg hcon] at hb
        have hcR : 16 * ((variancia l : ℚ) : ℝ) ≤ ((mediaQ l : ℚ) : ℝ) ^ 2 := by
          exact_mod_cast hc
        have h3 : ((variancia l : ℚ) : ℝ) ≤ (((mediaQ l : ℚ) : ℝ) / 4) ^ 2 := by
          nlinarith
        have h4 := hs.mpr h3
        rw [div_mul_eq_mul_div, div_le_iff₀ hmR]
        nlinarith
      · intro hb
        rw [div_mul_eq_mul_div, div_le_iff₀ hmR] at hb
        have h5 : Real.sqrt ((variancia l : ℚ) : ℝ) ≤ ((mediaQ l : ℚ) : ℝ) / 4 := by
          nlinarith
        have h6 := hs.mp h5
        have hc : 16 * variancia l ≤ (mediaQ l) ^ 2 := by
          have : 16 * ((variancia l : ℚ) : ℝ) ≤ ((mediaQ l : ℚ) : ℝ) ^ 2 := by nlinarith
          exact_mod_cast this
        rw [if_pos hc]

/-! ### Round-half-to-even: nearest value, ties to even -/

theorem roundHalfEven_spec (x : ℚ) :
    |x - (roundHalfEven x : ℚ)| ≤ 1 / 2 ∧
      (|x - (roundHalfEven x : ℚ)| = 1 / 2 → roundHalfEven x % 2 = 0) := by
  have hf0 : (0 : ℚ) ≤ x - (⌊x⌋ : ℚ) := by
    have := Int.floor_le x
    linarith
  have hf1 : x - (⌊x⌋ : ℚ) < 1 := by
    have := Int.lt_floor_add_one x
    linarith
  rw [roundHalfEven]
  split
  case isTrue h =>
    rw [abs_of_nonneg hf0]
    exact ⟨le_of_lt h, fun heq => absurd heq (by intro hcon; rw [hcon] at h; exact lt_irrefl _ h)⟩
  case isFalse h =>
    split
    case isTrue h2 =>
      have habs : |x - ((⌊x⌋ : ℚ) + 1)| = 1 - (x - (⌊x⌋ : ℚ)) := by
        rw [abs_of_nonpos (by linarith)]
        ring
      push_cast
      rw [habs]
      constructor
      · linarith
      · intro heq
        exact absurd heq (by intro hcon; linarith)
    case isFalse h2 =>
      have heq : x - (⌊x⌋ : ℚ) = 1 / 2 := le_antisymm (not_lt.mp h2) (not_lt.mp h)
      split
      case isTrue he =>
        rw [abs_of_nonneg hf0, heq]
        exact ⟨le_refl _, fun _ => he⟩
      case isFalse he =>
        have habs : |x - ((⌊x⌋ : ℚ) + 1)| = 1 - (x - (⌊x⌋ : ℚ)) := by
          rw [abs_of_nonpos (by linarith)]
          ring
        push_cast
        rw [habs, heq]
        norm_num
        have := Int.emod_two_eq_zero_or_one ⌊x⌋
        omega

theorem clampCasas_clamp (n : ℤ) : clampCasas (max 0 (min 7 n)) = clampCasas n := by
  rw [clampCasas, clampCasas]
  rcases le_total n 0 with h | h
  · rcases le_total 7 n with h7 | h7 <;> omega
  · rcases le_total 7 n with h7 | h7 <;> omega

theorem arredonda_nbr5891_clamp (v : ℚ) (n : ℤ) :
    arredonda_nbr5891 v (max 0 (min 7 n)) = arredonda_nbr5891 v n := by
  rw [arredonda_nbr5891, arredonda_nbr5891, clampCasas_clamp]

theorem arredonda_nbr5891_spec (v : ℚ) (n : ℤ) :
    (∃ z : ℤ, arredonda_nbr5891 v n = (z : ℚ) / 10 ^ clampCasas n) ∧
      |v - arredonda_nbr5891 v n| ≤ 1 / (2 * 10 ^ clampCasas n) ∧
      (|v - arredonda_nbr5891 v n| = 1 / (2 * 10 ^ clampCasas n) →
        roundHalfEven (v * 10 ^ clampCasas n) % 2 = 0) := by
  have hp : (0 : ℚ) < 10 ^ clampCasas n := by positivity
  obtain ⟨hle, htie⟩ := roundHalfEven_spec (v * 10 ^ clampCasas n)
  rw [arredonda_nbr5891]
  refine ⟨⟨roundHalfEven (v * 10 ^ clampCasas n), rfl⟩, ?_, ?_⟩
  · have hrw : v - (roundHalfEven (v * 10 ^ clampCasas n) : ℚ) / 10 ^ clampCasas n =
        (v * 10 ^ clampCasas n - (roundHalfEven (v * 10 ^ clampCasas n) : ℚ)) /
          10 ^ clampCasas n := by
      field_simp
    rw [hrw, abs_div, abs_of_pos hp, div_le_div_iff₀ hp (by positivity)]
    calc |v * 10 ^ clampCasas n - (roundHalfEven (v * 10 ^ clampCasas n) : ℚ)| *
          (2 * 10 ^ clampCasas n)
        ≤ (1 / 2) * (2 * 10 ^ clampCasas n) := by
          apply mul_le_mul_of_nonneg_right hle
          positivity
      _ = 1 * 10 ^ clampCasas n := by ring
  · intro heq
    apply htie
    have hrw : v - (roundHalfEven (v * 10 ^ clampCasas n) : ℚ) / 10 ^ clampCasas n =
        (v * 10 ^ clampCasas n - (roundHalfEven (v * 10 ^ clampCasas n) : ℚ)) /
          10 ^ clampCasas n := by
      field_simp
    rw [hrw, abs_div, abs_of_pos hp,
      div_eq_div_iff (ne_of_gt hp) (by positivity)] at heq
    have h2 : |v * 10 ^ clampCasas n - (roundHalfEven (v * 10 ^ clampCasas n) : ℚ)| *
        (2 * 10 ^ clampCasas n) = (1 / 2) * (2 * 10 ^ clampCasas n) := by
      rw [heq]
      ring
    have h3 : (0 : ℚ) < 2 * 10 ^ clampCasas n := by positivity
    exact mul_right_cancel₀ (ne_of_gt h3) h2

/-! ### First-occurrence minimum returned by `melhorLinha` -/

theorem min_le_of_split {res : Linha} {l1 l2 : List Linha}
    (h1 : ∀ s ∈ l1, res.preco < s.preco) (h2 : ∀ s ∈ l2, res.preco ≤ s.preco) :
    ∀ s ∈ l1 ++ res :: l2, res.preco ≤ s.preco := by
  intro s hs
  rcases List.mem_append.mp hs with hs1 | hs2
  · exact le_of_lt (h1 s hs1)
  · rcases List.mem_cons.mp hs2 with rfl | hs3
    · exact le_refl _
    · exact h2 s hs3

theorem melhorLinha_split :
    ∀ (rs : List Linha) (r0 : Linha),
      ∃ l1 l2, r0 :: rs = l1 ++ melhorLinha r0 rs :: l2 ∧
        (∀ s ∈ l1, (melhorLinha r0 rs).preco < s.preco) ∧
        (∀ s ∈ l2, (melhorLinha r0 rs).preco ≤ s.preco)
  | [], r0 => ⟨[], [], by simp [melhorLinha], by simp, by simp⟩
  | x :: rs, r0 => by
    rw [melhorLinha, List.foldl_cons]
    by_cases hx : x.preco < r0.preco
    · rw [if_pos hx]
      obtain ⟨l1, l2, hsplit, h1, h2⟩ := melhorLinha_split rs x
      rw [melhorLinha] at hsplit h1 h2
      refine ⟨r0 :: l1, l2, by rw [List.cons_append, ← hsplit], ?_, h2⟩
      intro s hs
      rcases List.mem_cons.mp hs with rfl | hs2
      · have hmem : x ∈ x :: rs := by simp
        rw [hsplit] at hmem
        have := min_le_of_split h1 h2 x hmem
        exact lt_of_le_of_lt this hx
      · exact h1 s hs2
    · rw [if_neg hx]
      obtain ⟨l1, l2, hsplit, h1, h2⟩ := melhorLinha_split rs r0
      rw [melhorLinha] at hsplit h1 h2
      cases l1 with
      | nil =>
        simp only [List.nil_append] at hsplit
        have hr0 : r0 = List.foldl (fun acc x => if x.preco < acc.preco then x else acc) r0 rs :=
          (List.cons.injEq _ _ _ _ ▸ hsplit).1
        have hl2 : rs = l2 := (List.cons.injEq _ _ _ _ ▸ hsplit).2
        refine ⟨[], x :: l2, ?_, by simp, ?_⟩
        · simp only [List.nil_append]
          rw [← hr0, ← hl2]
        · intro s hs
          rcases List.mem_cons.mp hs with rfl | hs2
          · rw [← hr0]
            exact le_of_not_lt hx
          · exact h2 s hs2
      | cons a l1t =>
        simp only [List.cons_append] at hsplit
        have ha : r0 = a := (List.cons.injEq _ _ _ _ ▸ hsplit).1
        have hrs : rs = l1t ++ List.foldl (fun acc x => if x.preco < acc.preco then x else acc) r0 rs :: l2 :=
          (List.cons.injEq _ _ _ _ ▸ hsplit).2
        refine ⟨r0 :: x :: l1t, l2, ?_, ?_, h2⟩
        · rw [List.cons_append, List.cons_append, ← hrs]
        · intro s hs
          have hr0lt : (List.foldl (fun acc x => if x.preco < acc.preco then x else acc) r0 rs).preco < r0.preco := by
            have : a ∈ a :: l1t := by simp
            have := h1 a this
            rw [← ha] at this
            exact this
          rcases List.mem_cons.mp hs with rfl | hs2
          · exact hr0lt
          · rcases List.mem_cons.mp hs2 with rfl | hs3
            · exact lt_of_lt_of_le hr0lt (le_of_not_lt hx)
            · exact h1 s (by simp [hs3])

/-! ### Problem-list membership -/

theorem mem_problemasDe_menos3 (linhas : List Linha) :
    Problema.menosDe3Validos ∈ problemasDe linhas ↔ (validos linhas).length < 3 := by
  rw [problemasDe]
  split_ifs <;> simp_all

theorem mem_problemasDe_nenhumPublico (linhas : List Linha) :
    Problema.nenhumPublicoValido ∈ problemasDe linhas ↔ contaPublicosValidos linhas = 0 := by
  rw [problemasDe]
  split_ifs <;> simp_all

theorem mem_problemasDe_menos3Publicos (linhas : List Linha) :
    Problema.menosDe3PublicosValidos ∈ problemasDe linhas ↔
      (0 < contaPublicosValidos linhas ∧ contaPublicosValidos linhas < 3) := by
  rw [problemasDe]
  split_ifs <;> simp_all <;> omega

/-! ### The final valid set is non-empty for well-formed inputs -/

theorem validos_filtros_ne_nil (dados : List (ℚ × Option String)) (t1 t2 : ℚ)
    (ht1 : 0 ≤ t1) (ht2b : t2 ≤ 100) (hp : ∀ x ∈ dados.map Prod.fst, 0 ≤ x)
    (hne : dados ≠ []) :
    validos (aplicaFiltro2 (aplicaFiltro1 dados t1) t2) ≠ [] := by
  have hpne : dados.map Prod.fst ≠ [] :=
    fun hcon => hne (List.map_eq_nil_iff.mp hcon)
  obtain ⟨i, hi, hmin⟩ := exists_min_getElem (dados.map Prod.fst) hpne
  have hid : i < dados.length := by simpa using hi
  have hl1 : (aplicaFiltro1 dados t1)[i]? =
      some (marca1 (dados.map Prod.fst) t1 i dados[i]) := by
    rw [getElem?_aplicaFiltro1, List.getElem?_eq_getElem hid]
    rfl
  have hpi : (dados.map Prod.fst)[i] = dados[i].1 := by simp
  have hvalid1 : (marca1 (dados.map Prod.fst) t1 i dados[i]).avaliacao =
      Avaliacao.valido := by
    apply marca1_valido_of_min (dados.map Prod.fst) t1 i dados[i] ?_ ?_ ht1
    · intro x hx
      rw [← hpi]
      exact hmin x hx
    · rw [← hpi]
      exact hp _ (List.getElem_mem hi)
  have hrowmem : marca1 (dados.map Prod.fst) t1 i dados[i] ∈ aplicaFiltro1 dados t1 :=
    mem_of_getElem?_eq_some hl1
  have hrowval : marca1 (dados.map Prod.fst) t1 i dados[i] ∈
      validos (aplicaFiltro1 dados t1) :=
    mem_validos.mpr ⟨hrowmem, (ehValido_iff _).mpr hvalid1⟩
  have hvne : validos (aplicaFiltro1 dados t1) ≠ [] := List.ne_nil_of_mem hrowval
  have hS1ne : (validos (aplicaFiltro1 dados t1)).map Linha.preco ≠ [] :=
    fun hcon => hvne (List.map_eq_nil_iff.mp hcon)
  have hl1precos : (aplicaFiltro1 dados t1).map Linha.preco = dados.map Prod.fst :=
    map_preco_eq_of_map_pair (map_pair_aplicaFiltro1Aux (dados.map Prod.fst) t1 0 dados)
  have hS1nn : ∀ x ∈ (validos (aplicaFiltro1 dados t1)).map Linha.preco, 0 ≤ x := by
    intro x hx
    obtain ⟨r, hr, rfl⟩ := List.mem_map.mp hx
    have hr1 : r ∈ aplicaFiltro1 dados t1 := (mem_validos.mp hr).1
    have hr2 : r.preco ∈ (aplicaFiltro1 dados t1).map Linha.preco :=
      List.mem_map_of_mem _ hr1
    rw [hl1precos] at hr2
    exact hp _ hr2
  obtain ⟨km, hkm, hmax⟩ :=
    exists_max_getElem ((validos (aplicaFiltro1 dados t1)).map Linha.preco) hS1ne
  have hkm2 : km < (validos (aplicaFiltro1 dados t1)).length := by simpa using hkm
  have hrv : (validos (aplicaFiltro1 dados t1))[km].preco =
      ((validos (aplicaFiltro1 dados t1)).map Linha.preco)[km] := by simp
  have hrvmem : (validos (aplicaFiltro1 dados t1))[km] ∈
      validos (aplicaFiltro1 dados t1) := List.getElem_mem hkm2
  have hrvval : (validos (aplicaFiltro1 dados t1))[km].ehValido = true :=
    (mem_validos.mp hrvmem).2
  have hrvl1 : (validos (aplicaFiltro1 dados t1))[km] ∈ aplicaFiltro1 dados t1 :=
    (mem_validos.mp hrvmem).1
  obtain ⟨k, hk, hkeq⟩ := List.getElem_of_mem hrvl1
  have hspec := (aplicaFiltro2_spec (aplicaFiltro1 dados t1) t2 k hk).2
    (by rw [hkeq]; exact hrvval)
  obtain ⟨n, hS1n, hres⟩ := hspec
  have hvres : (marca2 ((validos (aplicaFiltro1 dados t1)).map Linha.preco) t2 n
      (aplicaFiltro1 dados t1)[k]).avaliacao = Avaliacao.valido := by
    rw [hkeq]
    apply marca2_valido_of_max _ t2 n _ ((ehValido_iff _).mp hrvval) ?_ hS1nn ht2b
    intro x hx
    rw [hrv]
    exact hmax x hx
  have hm1 : marca2 ((validos (aplicaFiltro1 dados t1)).map Linha.preco) t2 n
      (aplicaFiltro1 dados t1)[k] ∈ aplicaFiltro2 (aplicaFiltro1 dados t1) t2 :=
    mem_of_getElem?_eq_some hres
  have hm2 : marca2 ((validos (aplicaFiltro1 dados t1)).map Linha.preco) t2 n
      (aplicaFiltro1 dados t1)[k] ∈ validos (aplicaFiltro2 (aplicaFiltro1 dados t1) t2) :=
    mem_validos.mpr ⟨hm1, (ehValido_iff _).mpr hvres⟩
  exact List.ne_nil_of_mem hm2

theorem finaisDe_ne_nil (df : List Cotacao) (t1 t2 : ℚ) (ht1 : 0 ≤ t1)
    (ht2b : t2 ≤ 100) (hp : ∀ x ∈ (dadosDe df).map Prod.fst, 0 ≤ x)
    (hne : dadosDe df ≠ []) : finaisDe df t1 t2 ≠ [] := by
  rw [finaisDe, avaliadosDe]
  exact validos_filtros_ne_nil (dadosDe df) t1 t2 ht1 ht2b hp hne

/-! ## Claim theorems -/

/-- C7: `calcular_preco_mercado` on the empty quotation list, and on any input
whose prices are all absent, returns the empty result `{}` (no aggregate
fields populated) and does not raise. -/
theorem C7_thm (t1 t2 : ℚ) (nd : ℤ) (b : Bool) :
    calcular_preco_mercado [] t1 t2 nd b = Saida.vazia ∧
    ∀ df : List Cotacao, (∀ c ∈ df, c.preco = none) →
      calcular_preco_mercado df t1 t2 nd b = Saida.vazia := by
  constructor
  · rw [calcular_preco_mercado]
    simp
  · intro df h
    have hnil : df.filterMap Cotacao.preco = [] := by
      rw [List.filterMap_eq_nil_iff]
      exact h
    rw [calcular_preco_mercado, if_pos (by simp [hnil])]

/-- Witness for C7 at the one-row all-absent input. -/
theorem C7_witness :
    (∀ c ∈ [Cotacao.mk none (some "Contrato")], c.preco = none) ∧
      calcular_preco_mercado [Cotacao.mk none (some "Contrato")] 25 75 2 true =
        Saida.vazia :=
  ⟨by simp, (C7_thm 25 75 2 true).2 [Cotacao.mk none (some "Contrato")] (by simp)⟩

/-- Concrete evaluation: the two-row all-negative input has a present price. -/
theorem dadosNeg_ne_nil :
    dadosDe [Cotacao.mk (some (-100)) none, Cotacao.mk (some (-90)) none] ≠ [] := by
  simp [dadosDe]

/-- Concrete evaluation: with prices `[-100, -90]` and thresholds 25/75 both
rows are flagged excessively elevated by filter 1, so the final valid set is
empty. -/
theorem finaisNeg_eq_nil :
    finaisDe [Cotacao.mk (some (-100)) none, Cotacao.mk (some (-90)) none] 25 75 = [] := by
  norm_num [finaisDe, avaliadosDe, dadosDe, aplicaFiltro1, aplicaFiltro1Aux,
    aplicaFiltro2, aplicaFiltro2Aux, marca1, marca2, media?, validos, Linha.ehValido,
    List.filterMap, List.filter]

/-- C3 counterexample: at the input `[{-100}, {-90}]` with thresholds 25/75 the
final valid set is empty, yet `calcular_preco_mercado` raises (the `idxmin`
`ValueError`, modelled `Saida.erro`) instead of appending a
"no valid price found" problem and returning `classified`/`problems`; no such
problem string exists in the code. -/
theorem C3_counterexample :
    finaisDe [Cotacao.mk (some (-100)) none, Cotacao.mk (some (-90)) none] 25 75 = [] ∧
    calcular_preco_mercado [Cotacao.mk (some (-100)) none, Cotacao.mk (some (-90)) none]
      25 75 2 true = Saida.erro :=
  ⟨finaisNeg_eq_nil, calcular_eq_erro dadosNeg_ne_nil finaisNeg_eq_nil⟩

/-- C3 (amended): on every input with at least one present price on which the
final valid set is empty, `calcular_preco_mercado` raises at the statistics
step (models the `ValueError` of `precos_finais.idxmin()` on an empty series);
it does not return a result, and the engine has no "no valid price found"
problem message.  Such inputs require a negative price (see C10). -/
theorem C3_thm (df : List Cotacao) (t1 t2 : ℚ) (nd : ℤ) (b : Bool)
    (hne : dadosDe df ≠ []) (hfin : finaisDe df t1 t2 = []) :
    calcular_preco_mercado df t1 t2 nd b = Saida.erro :=
  calcular_eq_erro hne hfin

/-- Witness for C3 at the concrete all-negative input. -/
theorem C3_witness :
    (dadosDe [Cotacao.mk (some (-100)) none, Cotacao.mk (some (-90)) none] ≠ [] ∧
      finaisDe [Cotacao.mk (some (-100)) none, Cotacao.mk (some (-90)) none] 25 75 = []) ∧
    calcular_preco_mercado [Cotacao.mk (some (-100)) none, Cotacao.mk (some (-90)) none]
      25 75 2 true = Saida.erro :=
  ⟨⟨dadosNeg_ne_nil, finaisNeg_eq_nil⟩,
    C3_thm _ 25 75 2 true dadosNeg_ne_nil finaisNeg_eq_nil⟩

/-- C10: for every input with at least one present price, all prices
non-negative and both thresholds in `[0, 100]`, the final valid set after both
filters is non-empty, so the aggregate-statistics step runs on at least one
valid row and the call neither returns empty nor raises. -/
theorem C10_thm (df : List Cotacao) (t1 t2 : ℚ) (nd : ℤ) (b : Bool)
    (ht1a : 0 ≤ t1) (_ht1b : t1 ≤ 100) (_ht2a : 0 ≤ t2) (ht2b : t2 ≤ 100)
    (hp : ∀ x ∈ (dadosDe df).map Prod.fst, 0 ≤ x) (hne : dadosDe df ≠ []) :
    finaisDe df t1 t2 ≠ [] ∧
      calcular_preco_mercado df t1 t2 nd b ≠ Saida.vazia ∧
      calcular_preco_mercado df t1 t2 nd b ≠ Saida.erro := by
  have hfin := finaisDe_ne_nil df t1 t2 ht1a ht2b hp hne
  have hemp : ¬ (df.filterMap Cotacao.preco).isEmpty = true := by
    rw [List.isEmpty_iff, filterMap_preco_eq_nil_iff]
    exact hne
  refine ⟨hfin, ?_, ?_⟩ <;>
  · rw [calcular_preco_mercado, if_neg hemp]
    cases hf : finaisDe df t1 t2 with
    | nil => exact absurd hf hfin
    | cons r0 rs => simp

/-- Witness for C10 at a two-row input with a public source. -/
theorem C10_witness :
    ((0 : ℚ) ≤ 25 ∧ (25 : ℚ) ≤ 100 ∧ (0 : ℚ) ≤ 75 ∧ (75 : ℚ) ≤ 100 ∧
      (∀ x ∈ (dadosDe [Cotacao.mk (some 10) (some "Contrato"),
        Cotacao.mk (some 12) none]).map Prod.fst, 0 ≤ x) ∧
      dadosDe [Cotacao.mk (some 10) (some "Contrato"), Cotacao.mk (some 12) none] ≠ []) ∧
    (finaisDe [Cotacao.mk (some 10) (some "Contrato"), Cotacao.mk (some 12) none] 25 75 ≠ [] ∧
      calcular_preco_mercado [Cotacao.mk (some 10) (some "Contrato"),
        Cotacao.mk (some 12) none] 25 75 2 true ≠ Saida.vazia ∧
      calcular_preco_mercado [Cotacao.mk (some 10) (some "Contrato"),
        Cotacao.mk (some 12) none] 25 75 2 true ≠ Saida.erro) :=
  ⟨⟨by norm_num, by norm_num, by norm_num, by norm_num,
    by
      intro x hx
      simp [dadosDe] at hx
      rcases hx with rfl | rfl <;> norm_num,
    by simp [dadosDe]⟩,
  C10_thm _ 25 75 2 true (by norm_num) (by norm_num) (by norm_num) (by norm_num)
    (by
      intro x hx
      simp [dadosDe] at hx
      rcases hx with rfl | rfl <;> norm_num)
    (by simp [dadosDe])⟩

/-- C1 counterexample: with only two priced rows (so each row has exactly one
other row), the second row is still flagged excessively elevated — the claim
that a row cannot be flagged unless at least 2 other rows exist is false on
the code (a pandas mean of a single other row is defined). -/
theorem C1_counterexample :
    (dadosDe [Cotacao.mk (some 100) none, Cotacao.mk (some 1000) none]).length = 2 ∧
    ((avaliadosDe [Cotacao.mk (some 100) none, Cotacao.mk (some 1000) none] 25 75)[1]?).map
        Linha.avaliacao = some Avaliacao.elevado := by
  constructor
  · simp [dadosDe]
  · norm_num [avaliadosDe, dadosDe, aplicaFiltro1, aplicaFiltro1Aux,
      aplicaFiltro2, aplicaFiltro2Aux, marca1, marca2, media?, validos, Linha.ehValido,
      List.filterMap, List.filter]

/-- C1 (amended): in the excessively-high filter every row is compared against
the leave-one-out mean over the original full eligible set (unaffected by
other filter-1 decisions), the comparison is performed whenever at least one
other row exists (with 0 other rows the mean is NaN and the row cannot be
flagged), and the row is marked excessively elevated exactly when
`p_i > (1 + limiar/100) * mean_others`; every other row keeps status valid. -/
theorem C1_thm (dados : List (ℚ × Option String)) (limiar : ℚ) (i : ℕ)
    (h : i < dados.length) :
    (((aplicaFiltro1 dados limiar)[i]?).map Linha.avaliacao = some Avaliacao.elevado ↔
      2 ≤ dados.length ∧
        dados[i].1 > (1 + limiar / 100) * mediaQ ((dados.map Prod.fst).eraseIdx i)) ∧
    (((aplicaFiltro1 dados limiar)[i]?).map Linha.avaliacao = some Avaliacao.elevado ∨
      ((aplicaFiltro1 dados limiar)[i]?).map Linha.avaliacao = some Avaliacao.valido) := by
  have hmap : i < (dados.map Prod.fst).length := by simpa using h
  rw [getElem?_aplicaFiltro1, List.getElem?_eq_getElem h]
  simp only [Option.map_some']
  constructor
  · rw [show (some (marca1 (dados.map Prod.fst) limiar i dados[i]).avaliacao =
        some Avaliacao.elevado) ↔
        (marca1 (dados.map Prod.fst) limiar i dados[i]).avaliacao = Avaliacao.elevado
      from by simp]
    rw [marca1_elevado_iff]
    constructor
    · rintro ⟨m, hm, hgt⟩
      obtain ⟨hne, hmeq⟩ := media?_eq_some_iff.mp hm
      have hlen2 : 2 ≤ dados.length := by
        have hl := length_eraseIdx_of_lt hmap
        have hne0 : ((dados.map Prod.fst).eraseIdx i).length ≠ 0 := by
          intro hcon
          exact hne (List.length_eq_zero.mp hcon)
        rw [List.length_map] at hl
        omega
      exact ⟨hlen2, by rw [← hmeq]; exact hgt⟩
    · rintro ⟨hlen2, hgt⟩
      refine ⟨mediaQ ((dados.map Prod.fst).eraseIdx i),
        media?_eq_some_iff.mpr ⟨?_, rfl⟩, hgt⟩
      intro hcon
      have hl := length_eraseIdx_of_lt hmap
      rw [hcon, List.length_map] at hl
      simp at hl
      omega
  · rcases avaliacao_marca1 (dados.map Prod.fst) limiar i dados[i] with hv | hv
    · right
      rw [hv]
    · left
      rw [hv]

/-- The two-row data set of the C1 witness. -/
def dadosC1 : List (ℚ × Option String) := [(100, none), (1000, none)]

/-- Witness for C1 at the two-row input, index 1. -/
theorem C1_witness :
    (1 < dadosC1.length) ∧
    ((((aplicaFiltro1 dadosC1 25)[1]?).map Linha.avaliacao = some Avaliacao.elevado ↔
        2 ≤ dadosC1.length ∧
          dadosC1[1].1 > (1 + 25 / 100) * mediaQ ((dadosC1.map Prod.fst).eraseIdx 1)) ∧
      (((aplicaFiltro1 dadosC1 25)[1]?).map Linha.avaliacao = some Avaliacao.elevado ∨
        ((aplicaFiltro1 dadosC1 25)[1]?).map Linha.avaliacao = some Avaliacao.valido)) :=
  ⟨by norm_num [dadosC1], C1_thm dadosC1 25 1 (by norm_num [dadosC1])⟩

/-! ### A shared concrete run used by several witnesses -/

/-- Two equal-priced vendor rows. -/
def dfPar : List Cotacao := [Cotacao.mk (some 2) none, Cotacao.mk (some 2) none]

/-- The result of `calcular_preco_mercado dfPar 25 75 2 true`. -/
def resPar : Resultados :=
  { problemas := [Problema.menosDe3Validos, Problema.nenhumPublicoValido]
    dfAvaliado := [Linha.mk 2 none Avaliacao.valido Obs.vazia,
      Linha.mk 2 none Avaliacao.valido Obs.vazia]
    media := 2
    metodoSugerido := Metodo.media
    precoMercadoBruto := 2
    precoMercadoCalculado := 2
    melhorPrecoInfo := Linha.mk 2 none Avaliacao.valido Obs.vazia
    precosArredondados := [2, 2]
    casasDecimais := 2
    aplicarNbr := true }

theorem arredonda_dois : arredonda_nbr5891 2 2 = 2 := by
  have hc : clampCasas 2 = 2 := by simp [clampCasas]
  have h1 : (2 : ℚ) * 10 ^ (2 : ℕ) = 200 := by norm_num
  have h2 : ⌊(200 : ℚ)⌋ = 200 := by norm_num
  rw [arredonda_nbr5891, hc, h1, roundHalfEven, h2]
  norm_num

theorem calcularPar : calcular_preco_mercado dfPar 25 75 2 true = Saida.ok resPar := by
  rw [dfPar, resPar]
  norm_num [calcular_preco_mercado, finaisDe, avaliadosDe, dadosDe, aplicaFiltro1,
    aplicaFiltro1Aux, aplicaFiltro2, aplicaFiltro2Aux, marca1, marca2, media?, validos,
    Linha.ehValido, List.filterMap, List.filter, precosFinaisDe, problemasDe,
    contaPublicosValidos, mediaQ, mediana, variancia, usaMedia, melhorLinha,
    arredondaResultado, arredonda_dois, ehFontePublica, List.insertionSort,
    List.orderedInsert]

theorem precosFinaisPar : precosFinaisDe dfPar 25 75 = [2, 2] := by
  norm_num [precosFinaisDe, finaisDe, avaliadosDe, dadosDe, aplicaFiltro1,
    aplicaFiltro1Aux, aplicaFiltro2, aplicaFiltro2Aux, marca1, marca2, media?, validos,
    Linha.ehValido, List.filterMap, List.filter, dfPar, ehFontePublica]

/-- C6: in a returned result, the fewer-than-3-valid problem is present exactly
when the final valid set has fewer than 3 rows; the zero-public-source problem
exactly when no valid row is from a public source; the fewer-than-3-public
problem exactly when that count is strictly between 0 and 3; and the two
public-source problems never appear together. -/
theorem C6_thm (df : List Cotacao) (t1 t2 : ℚ) (nd : ℤ) (b : Bool) (r : Resultados)
    (h : calcular_preco_mercado df t1 t2 nd b = Saida.ok r) :
    (Problema.menosDe3Validos ∈ r.problemas ↔ (finaisDe df t1 t2).length < 3) ∧
    (Problema.nenhumPublicoValido ∈ r.problemas ↔
      contaPublicosValidos (avaliadosDe df t1 t2) = 0) ∧
    (Problema.menosDe3PublicosValidos ∈ r.problemas ↔
      (0 < contaPublicosValidos (avaliadosDe df t1 t2) ∧
        contaPublicosValidos (avaliadosDe df t1 t2) < 3)) ∧
    ¬(Problema.nenhumPublicoValido ∈ r.problemas ∧
      Problema.menosDe3PublicosValidos ∈ r.problemas) := by
  obtain ⟨r0, rs, hfin, rfl⟩ := calcular_ok_inv h
  refine ⟨?_, ?_, ?_, ?_⟩
  · rw [show finaisDe df t1 t2 = validos (avaliadosDe df t1 t2) from rfl]
    exact mem_problemasDe_menos3 (avaliadosDe df t1 t2)
  · exact mem_problemasDe_nenhumPublico (avaliadosDe df t1 t2)
  · exact mem_problemasDe_menos3Publicos (avaliadosDe df t1 t2)
  · rintro ⟨h1, h2⟩
    have e1 := (mem_problemasDe_nenhumPublico (avaliadosDe df t1 t2)).mp h1
    have e2 := (mem_problemasDe_menos3Publicos (avaliadosDe df t1 t2)).mp h2
    omega

/-- Witness for C6 at the shared concrete run. -/
theorem C6_witness :
    calcular_preco_mercado dfPar 25 75 2 true = Saida.ok resPar ∧
    ((Problema.menosDe3Validos ∈ resPar.problemas ↔ (finaisDe dfPar 25 75).length < 3) ∧
      (Problema.nenhumPublicoValido ∈ resPar.problemas ↔
        contaPublicosValidos (avaliadosDe dfPar 25 75) = 0) ∧
      (Problema.menosDe3PublicosValidos ∈ resPar.problemas ↔
        (0 < contaPublicosValidos (avaliadosDe dfPar 25 75) ∧
          contaPublicosValidos (avaliadosDe dfPar 25 75) < 3)) ∧
      ¬(Problema.nenhumPublicoValido ∈ resPar.problemas ∧
        Problema.menosDe3PublicosValidos ∈ resPar.problemas)) :=
  ⟨calcularPar, C6_thm dfPar 25 75 2 true resPar calcularPar⟩

/-- C9: in a returned result, the classified rows are exactly the input
quotations with a present price, once each and in input order (their price and
source kind are preserved), and every classified row carries one of the three
statuses; quotations without a present price are dropped before any
computation (`dadosDe`). -/
theorem C9_thm (df : List Cotacao) (t1 t2 : ℚ) (nd : ℤ) (b : Bool) (r : Resultados)
    (h : calcular_preco_mercado df t1 t2 nd b = Saida.ok r) :
    r.dfAvaliado.map (fun l => (l.preco, l.tipoFonte)) = dadosDe df ∧
    ∀ l ∈ r.dfAvaliado, l.avaliacao = Avaliacao.valido ∨
      l.avaliacao = Avaliacao.elevado ∨ l.avaliacao = Avaliacao.inexequivel := by
  obtain ⟨r0, rs, hfin, rfl⟩ := calcular_ok_inv h
  constructor
  · exact map_pair_avaliadosDe df t1 t2
  · intro l _
    cases hl : l.avaliacao
    · exact Or.inl rfl
    · exact Or.inr (Or.inl rfl)
    · exact Or.inr (Or.inr rfl)

/-- Witness for C9 at the shared concrete run. -/
theorem C9_witness :
    calcular_preco_mercado dfPar 25 75 2 true = Saida.ok resPar ∧
    (resPar.dfAvaliado.map (fun l => (l.preco, l.tipoFonte)) = dadosDe dfPar ∧
      ∀ l ∈ resPar.dfAvaliado, l.avaliacao = Avaliacao.valido ∨
        l.avaliacao = Avaliacao.elevado ∨ l.avaliacao = Avaliacao.inexequivel) :=
  ⟨calcularPar, C9_thm dfPar 25 75 2 true resPar calcularPar⟩

/-- C8: in a returned result, `melhor_preco_info` is a row of the final valid
set whose price is minimal there, and every row strictly before it in the
final valid set (input order) has a strictly greater price — ties are broken
by first occurrence. -/
theorem C8_thm (df : List Cotacao) (t1 t2 : ℚ) (nd : ℤ) (b : Bool) (r : Resultados)
    (h : calcular_preco_mercado df t1 t2 nd b = Saida.ok r) :
    r.melhorPrecoInfo ∈ finaisDe df t1 t2 ∧
    (∀ s ∈ finaisDe df t1 t2, r.melhorPrecoInfo.preco ≤ s.preco) ∧
    ∃ l1 l2, finaisDe df t1 t2 = l1 ++ r.melhorPrecoInfo :: l2 ∧
      ∀ s ∈ l1, r.melhorPrecoInfo.preco < s.preco := by
  obtain ⟨r0, rs, hfin, rfl⟩ := calcular_ok_inv h
  obtain ⟨l1, l2, hsplit, h1, h2⟩ := melhorLinha_split rs r0
  rw [hfin]
  refine ⟨?_, ?_, l1, l2, hsplit, h1⟩
  · rw [hsplit]
    exact List.mem_append.mpr (Or.inr (by simp))
  · rw [hsplit]
    exact min_le_of_split h1 h2

/-- Witness for C8 at the shared concrete run. -/
theorem C8_witness :
    calcular_preco_mercado dfPar 25 75 2 true = Saida.ok resPar ∧
    (resPar.melhorPrecoInfo ∈ finaisDe dfPar 25 75 ∧
      (∀ s ∈ finaisDe dfPar 25 75, resPar.melhorPrecoInfo.preco ≤ s.preco) ∧
      ∃ l1 l2, finaisDe dfPar 25 75 = l1 ++ resPar.melhorPrecoInfo :: l2 ∧
        ∀ s ∈ l1, resPar.melhorPrecoInfo.preco < s.preco) :=
  ⟨calcularPar, C8_thm dfPar 25 75 2 true resPar calcularPar⟩

/-- C5: `arredonda_nbr5891` clamps the decimal places to `[0,7]`, returns a
number of the form `z / 10^k` (exact decimal arithmetic at the requested
precision), is never further than half an ulp from its input, breaks exact
ties towards the even digit, satisfies `arredonda_nbr5891 (1/8) 2 = 0.12` and
`arredonda_nbr5891 (27/200) 2 = 0.14`, and when `aplicar_nbr5891` is set the
engine applies it to the market price and to the returned mean. -/
theorem C5_thm :
    (∀ (v : ℚ) (n : ℤ), arredonda_nbr5891 v (max 0 (min 7 n)) = arredonda_nbr5891 v n) ∧
    (∀ (v : ℚ) (n : ℤ),
      (∃ z : ℤ, arredonda_nbr5891 v n = (z : ℚ) / 10 ^ clampCasas n) ∧
      |v - arredonda_nbr5891 v n| ≤ 1 / (2 * 10 ^ clampCasas n) ∧
      (|v - arredonda_nbr5891 v n| = 1 / (2 * 10 ^ clampCasas n) →
        roundHalfEven (v * 10 ^ clampCasas n) % 2 = 0)) ∧
    arredonda_nbr5891 (1 / 8) 2 = 3 / 25 ∧
    arredonda_nbr5891 (27 / 200) 2 = 7 / 50 ∧
    (∀ (df : List Cotacao) (t1 t2 : ℚ) (nd : ℤ) (r : Resultados),
      calcular_preco_mercado df t1 t2 nd true = Saida.ok r →
      r.precoMercadoCalculado = arredonda_nbr5891 r.precoMercadoBruto nd ∧
      r.media = arredonda_nbr5891 (mediaQ (precosFinaisDe df t1 t2)) nd) := by
  refine ⟨arredonda_nbr5891_clamp, arredonda_nbr5891_spec, ?_, ?_, ?_⟩
  · have hc : clampCasas 2 = 2 := by simp [clampCasas]
    have h1 : (1 / 8 : ℚ) * 10 ^ (2 : ℕ) = 25 / 2 := by norm_num
    have h2 : ⌊(25 / 2 : ℚ)⌋ = 12 := by norm_num
    rw [arredonda_nbr5891, hc, h1, roundHalfEven, h2]
    norm_num
  · have hc : clampCasas 2 = 2 := by simp [clampCasas]
    have h1 : (27 / 200 : ℚ) * 10 ^ (2 : ℕ) = 27 / 2 := by norm_num
    have h2 : ⌊(27 / 2 : ℚ)⌋ = 13 := by norm_num
    rw [arredonda_nbr5891, hc, h1, roundHalfEven, h2]
    norm_num
  · intro df t1 t2 nd r h
    obtain ⟨r0, rs, hfin, rfl⟩ := calcular_ok_inv h
    exact ⟨by simp [arredondaResultado], by simp [arredondaResultado]⟩

/-- Witness for C5: the engine-application part at the shared concrete run. -/
theorem C5_witness :
    calcular_preco_mercado dfPar 25 75 2 true = Saida.ok resPar ∧
    (resPar.precoMercadoCalculado = arredonda_nbr5891 resPar.precoMercadoBruto 2 ∧
      resPar.media = arredonda_nbr5891 (mediaQ (precosFinaisDe dfPar 25 75)) 2) :=
  ⟨calcularPar, C5_thm.2.2.2.2 dfPar 25 75 2 resPar calcularPar⟩

/-- C4: for a returned result, the code's coefficient of variation over the
final valid prices equals the population standard deviation (0 when fewer
than 2 entries) divided by the mean times 100 (0 when the mean is 0, given
non-negative prices); the suggested method is the mean exactly when this
coefficient is at most 25, with `preco_mercado_bruto` the mean in that case
and the median otherwise. -/
theorem C4_thm (df : List Cotacao) (t1 t2 : ℚ) (nd : ℤ) (b : Bool) (r : Resultados)
    (h : calcular_preco_mercado df t1 t2 nd b = Saida.ok r)
    (hnn : ∀ x ∈ precosFinaisDe df t1 t2, 0 ≤ x) :
    coefVariacao (precosFinaisDe df t1 t2) =
      (if mediaQ (precosFinaisDe df t1 t2) = 0 then 0
       else desvioPadrao (precosFinaisDe df t1 t2) /
         (mediaQ (precosFinaisDe df t1 t2) : ℝ) * 100) ∧
    desvioPadrao (precosFinaisDe df t1 t2) =
      (if (precosFinaisDe df t1 t2).length < 2 then 0
       else Real.sqrt (variancia (precosFinaisDe df t1 t2))) ∧
    (r.metodoSugerido = Metodo.media ↔ coefVariacao (precosFinaisDe df t1 t2) ≤ 25) ∧
    (r.metodoSugerido = Metodo.media →
      r.precoMercadoBruto = mediaQ (precosFinaisDe df t1 t2)) ∧
    (r.metodoSugerido = Metodo.mediana →
      r.precoMercadoBruto = mediana (precosFinaisDe df t1 t2)) := by
  obtain ⟨r0, rs, hfin, rfl⟩ := calcular_ok_inv h
  have h0 : 0 ≤ mediaQ (precosFinaisDe df t1 t2) := mediaQ_nonneg hnn
  refine ⟨?_, ?_, ?_, ?_, ?_⟩
  · rw [coefVariacao]
    by_cases hm : mediaQ (precosFinaisDe df t1 t2) = 0
    · rw [if_pos hm, if_neg (by rw [hm]; exact lt_irrefl 0)]
    · rw [if_pos (lt_of_le_of_ne h0 (Ne.symm hm)), if_neg hm]
  · rw [desvioPadrao]
    by_cases hl : (precosFinaisDe df t1 t2).length < 2
    · rw [if_pos hl, if_neg (by omega)]
    · rw [if_neg hl, if_pos (by omega)]
  · by_cases hu : usaMedia (precosFinaisDe df t1 t2) = true
    · simp only [hu, if_true]
      simp only [true_iff]
      exact (usaMedia_iff_coefVariacao_le (precosFinaisDe df t1 t2)).mp hu
    · simp only [Bool.not_eq_true] at hu
      simp only [hu, Bool.false_eq_true, if_false]
      constructor
      · intro hcon
        exact absurd hcon (by simp)
      · intro hcv
        have := (usaMedia_iff_coefVariacao_le (precosFinaisDe df t1 t2)).mpr hcv
        rw [hu] at this
        exact absurd this (by simp)
  · intro hm
    by_cases hu : usaMedia (precosFinaisDe df t1 t2) = true
    · simp only [hu, if_true]
    · simp only [Bool.not_eq_true] at hu
      simp only [hu, Bool.false_eq_true, if_false] at hm
      exact absurd hm (by simp)
  · intro hm
    by_cases hu : usaMedia (precosFinaisDe df t1 t2) = true
    · simp only [hu, if_true] at hm
      exact absurd hm (by simp)
    · simp only [Bool.not_eq_true] at hu
      simp only [hu, Bool.false_eq_true, if_false]

/-- Witness for C4 at the shared concrete run. -/
theorem C4_witness :
    (calcular_preco_mercado dfPar 25 75 2 true = Saida.ok resPar ∧
      (∀ x ∈ precosFinaisDe dfPar 25 75, 0 ≤ x)) ∧
    (coefVariacao (precosFinaisDe dfPar 25 75) =
      (if mediaQ (precosFinaisDe dfPar 25 75) = 0 then 0
       else desvioPadrao (precosFinaisDe dfPar 25 75) /
         (mediaQ (precosFinaisDe dfPar 25 75) : ℝ) * 100) ∧
    desvioPadrao (precosFinaisDe dfPar 25 75) =
      (if (precosFinaisDe dfPar 25 75).length < 2 then 0
       else Real.sqrt (variancia (precosFinaisDe dfPar 25 75))) ∧
    (resPar.metodoSugerido = Metodo.media ↔
      coefVariacao (precosFinaisDe dfPar 25 75) ≤ 25) ∧
    (resPar.metodoSugerido = Metodo.media →
      resPar.precoMercadoBruto = mediaQ (precosFinaisDe dfPar 25 75)) ∧
    (resPar.metodoSugerido = Metodo.mediana →
      resPar.precoMercadoBruto = mediana (precosFinaisDe dfPar 25 75))) :=
  ⟨⟨calcularPar, by
      intro x hx
      rw [precosFinaisPar] at hx
      rcases List.mem_cons.mp hx with rfl | hx2
      · norm_num
      · rcases List.mem_cons.mp hx2 with rfl | hx3
        · norm_num
        · simp at hx3⟩,
    C4_thm dfPar 25 75 2 true resPar calcularPar (by
      intro x hx
      rw [precosFinaisPar] at hx
      rcases List.mem_cons.mp hx with rfl | hx2
      · norm_num
      · rcases List.mem_cons.mp hx2 with rfl | hx3
        · norm_num
        · simp at hx3)⟩

/-- The leave-one-out mean in filter 2 only depends on which price value is
removed: removing position `n` or position `j` of the step-1-valid price list
gives the same mean when the two positions hold the same price. -/
theorem marca2_media_congr {S1 : List ℚ} {n j : ℕ} (hn : n < S1.length)
    (hj : j < S1.length) (heq : S1[n] = S1[j]) (limiar : ℚ) (r : Linha) :
    marca2 S1 limiar n r = marca2 S1 limiar j r := by
  rw [marca2, marca2, media?_eraseIdx hn, media?_eraseIdx hj, heq]

/-- C2: filter 2 leaves every row that is not step-1-valid unchanged; a
step-1-valid row `i` is processed with the leave-one-out mean over the
step-1-valid subset (removing row `i`, i.e. any position of the subset's
price list holding that row's price); when that mean is defined and
`p_i < (limiar/100) * mean`, a public-source row keeps its status and only
receives the acceptance note carrying `(p_i/mean)*100`, while any other row is
marked inexequível with the note carrying the same percentage; when the mean
is undefined or the comparison fails, the row is unchanged. -/
theorem C2_thm (linhas : List Linha) (limiar : ℚ) (i : ℕ) (h : i < linhas.length) :
    (linhas[i].avaliacao ≠ Avaliacao.valido →
      (aplicaFiltro2 linhas limiar)[i]? = some linhas[i]) ∧
    (linhas[i].avaliacao = Avaliacao.valido →
      ∀ (j : ℕ) (hj : j < ((validos linhas).map Linha.preco).length),
        ((validos linhas).map Linha.preco)[j] = linhas[i].preco →
        (aplicaFiltro2 linhas limiar)[i]? =
          some (marca2 ((validos linhas).map Linha.preco) limiar j linhas[i])) ∧
    (∀ (S1 : List ℚ) (j : ℕ) (r : Linha) (m : ℚ),
      media? (S1.eraseIdx j) = some m → r.preco < (limiar / 100) * m →
      (ehFontePublica r.tipoFonte = true →
        (marca2 S1 limiar j r).avaliacao = r.avaliacao ∧
        (marca2 S1 limiar j r).observacao =
          Obs.aceitoFontePublica (if m > 0 then r.preco / m * 100 else 0)) ∧
      (ehFontePublica r.tipoFonte = false →
        (marca2 S1 limiar j r).avaliacao = Avaliacao.inexequivel ∧
        (marca2 S1 limiar j r).observacao =
          Obs.precoInexequivel (if m > 0 then r.preco / m * 100 else 0))) ∧
    (∀ (S1 : List ℚ) (j : ℕ) (r : Linha),
      (media? (S1.eraseIdx j) = none → marca2 S1 limiar j r = r) ∧
      (∀ m : ℚ, media? (S1.eraseIdx j) = some m → ¬ r.preco < (limiar / 100) * m →
        marca2 S1 limiar j r = r)) := by
  refine ⟨?_, ?_, ?_, ?_⟩
  · intro hnv
    have hv : linhas[i].ehValido = false := by
      rcases Bool.eq_false_or_eq_true (linhas[i].ehValido) with hb | hb
      · exact absurd ((ehValido_iff _).mp hb) hnv
      · exact hb
    exact (aplicaFiltro2_spec linhas limiar i h).1 hv
  · intro hval j hj hjeq
    have hv : linhas[i].ehValido = true := (ehValido_iff _).mpr hval
    obtain ⟨n, hn, hres⟩ := (aplicaFiltro2_spec linhas limiar i h).2 hv
    obtain ⟨hnlt, hneq⟩ := List.getElem?_eq_some.mp hn
    rw [hres]
    exact congrArg some (marca2_media_congr hnlt hj (by rw [hneq, hjeq]) limiar _)
  · intro S1 j r m hm hlt
    rw [marca2, hm]
    simp only []
    rw [if_pos hlt]
    constructor
    · intro hpub
      rw [if_pos hpub]
      exact ⟨rfl, rfl⟩
    · intro hpub
      rw [if_neg (by simp [hpub])]
      exact ⟨rfl, rfl⟩
  · intro S1 j r
    constructor
    · intro hm
      rw [marca2, hm]
    · intro m hm hnot
      rw [marca2, hm]
      simp only []
      rw [if_neg hnot]

/-- The three-row step-1-valid list of the C2 witness: two vendor rows at 100
and one public-source row at 10. -/
def linhasC2 : List Linha :=
  [Linha.mk 100 none Avaliacao.valido Obs.vazia,
    Linha.mk 100 none Avaliacao.valido Obs.vazia,
    Linha.mk 10 (some "Banco de Preços/Comprasnet") Avaliacao.valido Obs.vazia]

/-- Witness for C2 at the public-source row of `linhasC2`. -/
theorem C2_witness :
    (2 < linhasC2.length) ∧
    ((linhasC2[2].avaliacao ≠ Avaliacao.valido →
      (aplicaFiltro2 linhasC2 75)[2]? = some linhasC2[2]) ∧
    (linhasC2[2].avaliacao = Avaliacao.valido →
      ∀ (j : ℕ) (hj : j < ((validos linhasC2).map Linha.preco).length),
        ((validos linhasC2).map Linha.preco)[j] = linhasC2[2].preco →
        (aplicaFiltro2 linhasC2 75)[2]? =
          some (marca2 ((validos linhasC2).map Linha.preco) 75 j linhasC2[2])) ∧
    (∀ (S1 : List ℚ) (j : ℕ) (r : Linha) (m : ℚ),
      media? (S1.eraseIdx j) = some m → r.preco < (75 / 100) * m →
      (ehFontePublica r.tipoFonte = true →
        (marca2 S1 75 j r).avaliacao = r.avaliacao ∧
        (marca2 S1 75 j r).observacao =
          Obs.aceitoFontePublica (if m > 0 then r.preco / m * 100 else 0)) ∧
      (ehFontePublica r.tipoFonte = false →
        (marca2 S1 75 j r).avaliacao = Avaliacao.inexequivel ∧
        (marca2 S1 75 j r).observacao =
          Obs.precoInexequivel (if m > 0 then r.preco / m * 100 else 0))) ∧
    (∀ (S1 : List ℚ) (j : ℕ) (r : Linha),
      (media? (S1.eraseIdx j) = none → marca2 S1 75 j r = r) ∧
      (∀ m : ℚ, media? (S1.eraseIdx j) = some m → ¬ r.preco < (75 / 100) * m →
        marca2 S1 75 j r = r))) :=
  ⟨by norm_num [linhasC2], C2_thm linhasC2 75 2 (by norm_num [linhasC2])⟩
